import Mathlib

/-!
Shallow embedding of `fossdriver/server.py` (class `FossServer`) and proofs
about its transport retry policy, job lookup and classification, upload
lookup, report gating, bulk-text-match request building, and polling loop.

The HTTP server and the HTML/JSON parsers (`fossdriver.parser`) are external
collaborators: they are modelled as environment functions (tables from
identifiers to parsed records) that each embedded operation receives as an
argument.  Effects are made explicit: a network call becomes a lookup in an
outcome trace, a file write becomes a returned `Option String`, and the
unbounded polling loop becomes a step-indexed function with explicit fuel.
-/

namespace Fossdriver

/-- An HTTP response as seen by `requests`: a status code and a body.
The transport layer never inspects `status`. -/
structure Response where
  status : Nat
  content : String
deriving DecidableEq

/-- A job row or job-detail record as produced by `fossdriver.parser`
(`parseDecodedAjaxShowJobsData` / `parseSingleJobData`): numeric id, agent
name, status string, and report id (meaningful for report-generator jobs). -/
structure ParsedJob where
  _id : Int
  agent : String
  status : String
  reportId : Int
deriving DecidableEq

/-- An upload row as produced by `fossdriver.parser.parseAllUploadDataForFolder`:
numeric id and display name. -/
structure ParsedUpload where
  _id : Int
  name : String
deriving DecidableEq

/-- server.py lines 15-23: `BulkTextMatchAction` — a license id, a license
name, and an action verb (`"add"` or `"remove"`; not validated). -/
structure BulkTextMatchAction where
  licenseId : Int
  licenseName : String
  action : String
deriving DecidableEq

/-- Python's substring test `needle in haystack` on strings. -/
def strIn (needle haystack : String) : Bool :=
  decide (needle.toList <:+: haystack.toList)

deriving instance DecidableEq for Except

/-- The outcome of one network attempt: `.ok r` — the server answered with
response `r` (whatever its HTTP status); `.error e` — a connection-level
failure (`requests.exceptions.ConnectionError`), tagged `e` to tell distinct
failures apart. -/
abbrev Attempt := Except Nat Response

/-- server.py lines 36-47: the retry loop inside `FossServer._get`.
`outcomes i` is what the network does on the i-th request; `tries` counts the
remaining iterations of `range(0, 5)`; `exc` holds the last caught connection
error; `attempts` counts requests issued so far and `slept` the seconds slept
so far (the code sleeps 1 second after every caught failure).  Returns the
call's result (`.error exc` models `raise exc`) with total attempts and total
seconds slept. -/
def getLoop (outcomes : Nat → Attempt) :
    Nat → Nat → Option Nat → Nat → Nat → Except (Option Nat) Response × Nat × Nat
  | _, 0, exc, attempts, slept => (.error exc, attempts, slept)
  | i, tries + 1, _, attempts, slept =>
    match outcomes i with
    | .ok r => (.ok r, attempts + 1, slept)
    | .error e => getLoop outcomes (i + 1) tries (some e) (attempts + 1) (slept + 1)

/-- server.py lines 32-47: `FossServer._get` — up to 5 attempts. -/
def _get (outcomes : Nat → Attempt) : Except (Option Nat) Response × Nat × Nat :=
  getLoop outcomes 0 5 none 0 0

/-- server.py lines 49-55: `FossServer._post` — a single `session.post` with
no try/except around it, so the first outcome is the call's outcome (a
connection failure propagates) and exactly one request is issued. -/
def _post (outcomes : Nat → Attempt) : Attempt × Nat :=
  (outcomes 0, 1)

/-- server.py lines 250-253: the scan loop of `_getMostRecentAgentJobNum`
over the reverse-chronological job list. -/
def scanJobs (agent : String) : List ParsedJob → Int
  | [] => -1
  | job :: rest => if job.agent = agent then job._id else scanJobs agent rest

/-- server.py lines 236-253: `FossServer._getMostRecentAgentJobNum`.
`jobs` is what `_getJobsForUpload` handed back (`none` models a `None`
parse result); `None` or `[]` short-circuit to the sentinel -1. -/
def _getMostRecentAgentJobNum (jobs : Option (List ParsedJob)) (agent : String) : Int :=
  match jobs with
  | none => -1
  | some js => if js = [] then -1 else scanJobs agent js

/-- Modelled from the spec: `fossdriver.parser.parseSingleJobData` is not in
src/ (only `server.py` is); per spec section 7 a not-found record is surfaced
as a sentinel "absent" result, modelled as a record with empty agent name and
empty status, so it matches no agent and no terminal status. -/
def absentJob : ParsedJob := ⟨-1, "", "", -1⟩

/-- server.py lines 255-260: `FossServer._getJobSingleData`.  `details` is the
server's job-detail table (endpoint `?mod=ajaxShowJobs&do=showSingleJob`);
an id the server has no job for parses to the absent record. -/
def _getJobSingleData (details : Int → Option ParsedJob) (jobNum : Int) : ParsedJob :=
  (details jobNum).getD absentJob

/-- server.py lines 262-269: `FossServer._isJobDoneYet` — status `"Completed"`
or any status containing `"killed"` is terminal. -/
def _isJobDoneYet (details : Int → Option ParsedJob) (jobNum : Int) : Bool :=
  let job := _getJobSingleData details jobNum
  if job.status = "Completed" then true
  else if strIn "killed" job.status then true
  else false

/-- server.py lines 381-389: `FossServer.IsAgentDone` — resolve the most
recent job for the agent, then classify it. -/
def IsAgentDone (jobs : Option (List ParsedJob)) (details : Int → Option ParsedJob)
    (agent : String) : Bool :=
  let jobNum := _getMostRecentAgentJobNum jobs agent
  _isJobDoneYet details jobNum

/-- server.py lines 402-403: the `while not self._isJobDoneYet(jobNum):
time.sleep(pollSeconds)` loop, step-indexed.  `done t` is the classification
the t-th status check observes, `slept` the accumulated sleep in seconds, and
`fuel` bounds how many checks we observe (the code itself has no bound).
Returns the index of the check on which the loop exited together with the
total sleep, or `none` when the job was non-terminal at every observed
check. -/
def waitLoop (done : Nat → Bool) (poll : Nat) : Nat → Nat → Nat → Option (Nat × Nat)
  | _, _, 0 => none
  | i, slept, fuel + 1 =>
    if done i then some (i, slept) else waitLoop done poll (i + 1) (slept + poll) fuel

/-- server.py lines 391-403: `FossServer.WaitUntilAgentIsDone`.  `jobsAt t` is
the job list the server would report at the time of the t-th check; the code
resolves the job number from it exactly once, before the loop (t = 0).
`detailsAt t` is the job-detail table at the t-th check. -/
def WaitUntilAgentIsDone (jobsAt : Nat → Option (List ParsedJob))
    (detailsAt : Nat → Int → Option ParsedJob) (agent : String) (poll fuel : Nat) :
    Option (Nat × Nat) :=
  let jobNum := _getMostRecentAgentJobNum (jobsAt 0) agent
  waitLoop (fun t => _isJobDoneYet (detailsAt t) jobNum) poll 0 0 fuel

/-- server.py lines 115-120: the scan loop of `_getUploadData` — exact name
match when `exact`, substring match otherwise, first hit wins. -/
def scanUploads (uploadName : String) (exact : Bool) :
    List ParsedUpload → Option ParsedUpload
  | [] => none
  | u :: rest =>
    if exact = true ∧ uploadName = u.name then some u
    else if exact = false ∧ strIn uploadName u.name = true then some u
    else scanUploads uploadName exact rest

/-- server.py lines 93-120: `FossServer._getUploadData`.  `uploadData` is the
parsed `aaData` listing (`none` models a missing `aaData` key; the code also
returns `None` for an empty parse result before scanning). -/
def _getUploadData (uploadData : Option (List ParsedUpload)) (uploadName : String)
    (exact : Bool) : Option ParsedUpload :=
  match uploadData with
  | none => none
  | some us => if us = [] then none else scanUploads uploadName exact us

/-- server.py lines 122-134: `FossServer.GetUploadNum` — the found upload's id,
or -1 when `_getUploadData` produced `None`. -/
def GetUploadNum (uploadData : Option (List ParsedUpload)) (uploadName : String)
    (exact : Bool) : Int :=
  match _getUploadData uploadData uploadName exact with
  | none => -1
  | some u => u._id

/-- server.py lines 323-343: `FossServer.GetSPDXTVReport`.  `report` is the
server's report-download table (endpoint `?mod=download&report=`).  Returns
the success flag together with the content written to `outFilePath`
(`none` when no write is performed). -/
def GetSPDXTVReport (jobs : Option (List ParsedJob)) (details : Int → Option ParsedJob)
    (report : Int → String) : Bool × Option String :=
  let jobNum := _getMostRecentAgentJobNum jobs "spdx2tv"
  let job := _getJobSingleData details jobNum
  if job.agent ≠ "spdx2tv" ∨ job.status ≠ "Completed" then (false, none)
  else (true, some (report job.reportId))

/-- server.py lines 370-378: the row-building loop of `StartBulkTextMatch` —
three indexed fields per action, `row` incremented per action. -/
def bulkActionRows : List BulkTextMatchAction → Nat → List (String × String)
  | [], _ => []
  | a :: rest, row =>
    (s!"bulkAction[{row}][licenseId]", toString a.licenseId) ::
    (s!"bulkAction[{row}][licenseName]", a.licenseName) ::
    (s!"bulkAction[{row}][action]", a.action) ::
    bulkActionRows rest (row + 1)

/-- server.py lines 354-379: `FossServer.StartBulkTextMatch` — the endpoint
and the form fields of the POST it unconditionally issues, in insertion
order (the Python dict preserves it). -/
def StartBulkTextMatch (refText : String) (itemNum : Int)
    (actions : List BulkTextMatchAction) : String × List (String × String) :=
  ("/repo/?mod=change-license-bulk",
    [("refText", refText), ("bulkScope", "u"),
     ("uploadTreeId", toString itemNum), ("forceDecision", "0")]
    ++ bulkActionRows actions 0)

/-! Concrete network traces and server environments used to evaluate the
theorems below on explicit inputs. -/

/-- A network trace whose first attempt is a connection failure and whose
later attempts would succeed. -/
def cexTrace : Nat → Attempt := fun n => if n = 0 then .error 7 else .ok ⟨200, "ok"⟩

/-- A network trace with two connection failures followed by a response whose
HTTP status is an error status (500). -/
def witTrace : Nat → Attempt := fun n => if n < 2 then .error n else .ok ⟨500, "server error"⟩

/-- A network trace on which every attempt is a connection failure. -/
def failTrace : Nat → Attempt := fun n => .error n

/-- A job-detail table over time: job 5 is "Processing" at checks 0 and 1 and
"Completed" from check 2 on; no other job exists. -/
def wDetailsAt : Nat → Int → Option ParsedJob := fun t j =>
  if j = 5 then some ⟨5, "monk", if 2 ≤ t then "Completed" else "Processing", -1⟩ else none

/-- A constant job listing holding only job 5 of agent "monk". -/
def wJobsAt : Nat → Option (List ParsedJob) := fun _ => some [⟨5, "monk", "Processing", -1⟩]

/-- A job listing where a newer "monk" job (id 8) appears after time 0. -/
def wJobsAtLater : Nat → Option (List ParsedJob) := fun t =>
  if t = 0 then some [⟨5, "monk", "Processing", -1⟩]
  else some [⟨8, "monk", "Processing", -1⟩, ⟨5, "monk", "Processing", -1⟩]

/-! Helper lemmas. -/

/-- The scan loop of `_getMostRecentAgentJobNum` returns the id of the first
match of `List.find?`, or -1. -/
theorem scanJobs_eq_find (agent : String) (jobs : List ParsedJob) :
    scanJobs agent jobs =
      (match jobs.find? (fun j => j.agent == agent) with
       | some j => j._id
       | none => -1) := by
  induction jobs with
  | nil => rfl
  | cons j rest ih =>
    simp only [scanJobs, List.find?]
    by_cases h : j.agent = agent
    · simp [h]
    · have hb : (j.agent == agent) = false := by simp [h]
      simp [h, hb, ih]

/-- The scan loop of `_getUploadData` is `List.find?` with the mode-dependent
match predicate. -/
theorem scanUploads_eq_find (uploadName : String) (exact : Bool) (us : List ParsedUpload) :
    scanUploads uploadName exact us =
      us.find? (fun u => if exact then uploadName == u.name else strIn uploadName u.name) := by
  induction us with
  | nil => rfl
  | cons u rest ih =>
    cases exact with
    | false =>
      simp only [scanUploads, List.find?]
      by_cases h : strIn uploadName u.name = true
      · simp [h]
      · simp [h, ih]
    | true =>
      simp only [scanUploads, List.find?]
      by_cases h : uploadName = u.name
      · simp [h]
      · have hb : (uploadName == u.name) = false := by simp [h]
        simp [h, hb, ih]

/-- C3: a job is classified terminal (done) if and only if its status string
equals "Completed" or contains the substring "killed"; every other status is
classified as not done. -/
theorem isJobDoneYet_terminal_iff (details : Int → Option ParsedJob) (jobNum : Int) :
    _isJobDoneYet details jobNum = true ↔
      ((_getJobSingleData details jobNum).status = "Completed" ∨
       "killed".toList <:+: (_getJobSingleData details jobNum).status.toList) := by
  unfold _isJobDoneYet strIn
  by_cases h1 : (_getJobSingleData details jobNum).status = "Completed"
  · simp [h1]
  · by_cases h2 : "killed".toList <:+: (_getJobSingleData details jobNum).status.toList
    · simp [h1, h2]
    · simp [h1, h2]

/-- C4: on a reverse-chronological job list, the most-recent-job lookup
returns the id of the first entry whose agent name equals the target, and the
sentinel -1 when the list is absent, empty, or has no entry for that agent. -/
theorem mostRecentJob_first_match (jobs : List ParsedJob) (agent : String) :
    _getMostRecentAgentJobNum none agent = -1 ∧
    _getMostRecentAgentJobNum (some jobs) agent =
      (match jobs.find? (fun j => j.agent == agent) with
       | some j => j._id
       | none => -1) := by
  refine ⟨rfl, ?_⟩
  cases jobs with
  | nil => rfl
  | cons j rest =>
    simpa [_getMostRecentAgentJobNum] using scanJobs_eq_find agent (j :: rest)

/-- C7: the upload-number lookup returns the id of the first entry whose name
equals the query (`exact = true`) or contains it as a substring
(`exact = false`), in server-provided order, and -1 when the listing is
absent or nothing matches. -/
theorem getUploadNum_first_match (uploadData : Option (List ParsedUpload))
    (uploadName : String) (exact : Bool) :
    GetUploadNum uploadData uploadName exact =
      (match uploadData with
       | none => -1
       | some us =>
         match us.find?
             (fun u => if exact then uploadName == u.name else strIn uploadName u.name) with
         | some u => u._id
         | none => -1) := by
  cases uploadData with
  | none => rfl
  | some us =>
    cases us with
    | nil => rfl
    | cons v rest =>
      have h1 : _getUploadData (some (v :: rest)) uploadName exact =
          (v :: rest).find?
            (fun u => if exact then uploadName == u.name else strIn uploadName u.name) := by
        simp [_getUploadData, scanUploads_eq_find]
      unfold GetUploadNum
      rw [h1]
      cases hf : (v :: rest).find?
          (fun u => if exact then uploadName == u.name else strIn uploadName u.name) <;>
        simp [hf]

/-- The row-building loop emits, for the action at offset `p.1` of the
enumeration starting at `row`, the three fields of that row. -/
theorem bulkActionRows_eq_enumFrom (actions : List BulkTextMatchAction) :
    ∀ row : Nat,
      bulkActionRows actions row =
        (List.enumFrom row actions).flatMap (fun p =>
          [(s!"bulkAction[{p.1}][licenseId]", toString p.2.licenseId),
           (s!"bulkAction[{p.1}][licenseName]", p.2.licenseName),
           (s!"bulkAction[{p.1}][action]", p.2.action)]) := by
  induction actions with
  | nil => intro row; rfl
  | cons a rest ih =>
    intro row
    simp only [bulkActionRows, List.enumFrom, List.flatMap_cons, ih (row + 1)]
    rfl

/-- The row-building loop emits exactly three fields per action. -/
theorem bulkActionRows_length (actions : List BulkTextMatchAction) :
    ∀ row : Nat, (bulkActionRows actions row).length = 3 * actions.length := by
  induction actions with
  | nil => intro _; rfl
  | cons a rest ih =>
    intro row
    simp only [bulkActionRows, List.length_cons, ih (row + 1), List.length_cons]
    omega

/-- C8: for a list of n actions the bulk text-match request carries, after the
four fixed fields, exactly 3n indexed fields: for the action at zero-based
position i, the fields bulkAction[i][licenseId], bulkAction[i][licenseName]
and bulkAction[i][action] carry that action's data, indices assigned in
encounter order; nothing is deduplicated or validated. -/
theorem startBulkTextMatch_fields (refText : String) (itemNum : Int)
    (actions : List BulkTextMatchAction) :
    (StartBulkTextMatch refText itemNum actions).2 =
      [("refText", refText), ("bulkScope", "u"),
       ("uploadTreeId", toString itemNum), ("forceDecision", "0")]
      ++ actions.enum.flatMap (fun p =>
        [(s!"bulkAction[{p.1}][licenseId]", toString p.2.licenseId),
         (s!"bulkAction[{p.1}][licenseName]", p.2.licenseName),
         (s!"bulkAction[{p.1}][action]", p.2.action)]) ∧
    (StartBulkTextMatch refText itemNum actions).2.length = 4 + 3 * actions.length := by
  constructor
  · simp only [StartBulkTextMatch]
    rw [bulkActionRows_eq_enumFrom]
    rfl
  · simp [StartBulkTextMatch, bulkActionRows_length]
    omega

/-- C10: with an empty actions list, StartBulkTextMatch still issues the POST
to the bulk endpoint, whose form holds exactly the four fixed fields and no
bulkAction-indexed field. -/
theorem startBulkTextMatch_empty (refText : String) (itemNum : Int) :
    StartBulkTextMatch refText itemNum [] =
      ("/repo/?mod=change-license-bulk",
       [("refText", refText), ("bulkScope", "u"),
        ("uploadTreeId", toString itemNum), ("forceDecision", "0")]) := rfl

/-- C2: GetSPDXTVReport returns False and writes nothing whenever the fetched
most-recent spdx2tv job's agent name is not exactly "spdx2tv" or its status
is not exactly "Completed" (nothing is raised for a missing or killed
report); when the gate passes it returns True and writes the report body
fetched by the job's report id verbatim. -/
theorem getSPDXTVReport_gate (jobs : Option (List ParsedJob))
    (details : Int → Option ParsedJob) (report : Int → String) :
    GetSPDXTVReport jobs details report =
      (let job := _getJobSingleData details (_getMostRecentAgentJobNum jobs "spdx2tv")
       if job.agent = "spdx2tv" ∧ job.status = "Completed"
       then (true, some (report job.reportId)) else (false, none)) := by
  unfold GetSPDXTVReport
  by_cases h1 :
      (_getJobSingleData details (_getMostRecentAgentJobNum jobs "spdx2tv")).agent = "spdx2tv" <;>
    by_cases h2 :
        (_getJobSingleData details
          (_getMostRecentAgentJobNum jobs "spdx2tv")).status = "Completed" <;>
      simp [h1, h2]

/-- C5: when the job lookup finds no matching job (sentinel -1) and the
server has no job numbered -1, IsAgentDone reports not done. -/
theorem isAgentDone_not_found (jobs : Option (List ParsedJob))
    (details : Int → Option ParsedJob) (agent : String)
    (habsent : details (-1) = none)
    (hnf : _getMostRecentAgentJobNum jobs agent = -1) :
    IsAgentDone jobs details agent = false := by
  unfold IsAgentDone _isJobDoneYet _getJobSingleData
  simp only [hnf, habsent]
  rfl

/-- C5 witness: a listing holding only a "monk" job yields no "nomos" job,
and IsAgentDone for "nomos" is False. -/
theorem isAgentDone_not_found_witness :
    IsAgentDone (some [⟨9, "monk", "Processing", -1⟩]) (fun _ => none) "nomos" = false :=
  isAgentDone_not_found _ _ _ rfl (by decide)

/-- If the first k attempts starting at index i fail and attempt i + k
succeeds with r, the retry loop returns r, having issued k + 1 further
requests and slept k further seconds. -/
theorem getLoop_ok (outcomes : Nat → Attempt) (k : Nat) :
    ∀ (tries i : Nat) (exc : Option Nat) (attempts slept : Nat) (r : Response),
      k < tries → (∀ j, j < k → ∃ e, outcomes (i + j) = .error e) →
      outcomes (i + k) = .ok r →
      getLoop outcomes i tries exc attempts slept = (.ok r, attempts + (k + 1), slept + k) := by
  induction k with
  | zero =>
    intro tries i exc attempts slept r hk hfail hok
    cases tries with
    | zero => omega
    | succ t =>
      have h0 : outcomes i = .ok r := by simpa using hok
      simp [getLoop, h0]
  | succ k ih =>
    intro tries i exc attempts slept r hk hfail hok
    cases tries with
    | zero => omega
    | succ t =>
      obtain ⟨e, he⟩ := hfail 0 (by omega)
      have he0 : outcomes i = .error e := by simpa using he
      have step := ih t (i + 1) (some e) (attempts + 1) (slept + 1) r (by omega)
        (fun j hj => by
          obtain ⟨e2, he2⟩ := hfail (j + 1) (by omega)
          exact ⟨e2, by rw [show i + 1 + j = i + (j + 1) by omega]; exact he2⟩)
        (by rw [show i + 1 + k = i + (k + 1) by omega]; exact hok)
      rw [show attempts + 1 + (k + 1) = attempts + (k + 1 + 1) by omega,
          show slept + 1 + k = slept + (k + 1) by omega] at step
      simpa [getLoop, he0] using step

/-- If every attempt of the remaining `tries` fails, the retry loop raises
the last connection error after exactly `tries` further requests and
`tries` further seconds of sleep. -/
theorem getLoop_fail (outcomes : Nat → Attempt) (f : Nat → Nat) (tries : Nat) :
    ∀ (i : Nat) (exc : Option Nat) (attempts slept : Nat),
      0 < tries → (∀ j, j < tries → outcomes (i + j) = .error (f (i + j))) →
      getLoop outcomes i tries exc attempts slept =
        (.error (some (f (i + (tries - 1)))), attempts + tries, slept + tries) := by
  induction tries with
  | zero => intro i exc attempts slept h; omega
  | succ t ih =>
    intro i exc attempts slept _ hfail
    have he : outcomes i = .error (f i) := by simpa using hfail 0 (by omega)
    cases Nat.eq_zero_or_pos t with
    | inl h0 =>
      subst h0
      simp [getLoop, he]
    | inr hpos =>
      have step := ih (i + 1) (some (f i)) (attempts + 1) (slept + 1) hpos
        (fun j hj => by
          rw [show i + 1 + j = i + (j + 1) by omega]
          exact hfail (j + 1) (by omega))
      rw [show i + 1 + (t - 1) = i + (t + 1 - 1) by omega,
          show attempts + 1 + t = attempts + (t + 1) by omega,
          show slept + 1 + t = slept + (t + 1) by omega] at step
      simpa [getLoop, he] using step

/-- C1 (amended): a GET retries connection failures up to 5 attempts total,
sleeping 1 second after each failure — at most 4 consecutive failures
followed by a success make the call return that response (whatever its HTTP
status) within 5 attempts, and 5 consecutive failures make it raise the last
connection error after exactly 5 attempts; a form POST, however, issues
exactly one request and propagates a connection failure immediately, and
likewise returns any response unretried. -/
theorem retryPolicy (outcomes : Nat → Attempt) :
    (∀ k r, k ≤ 4 → (∀ j, j < k → ∃ e, outcomes j = .error e) → outcomes k = .ok r →
      _get outcomes = (.ok r, k + 1, k)) ∧
    (∀ f : Nat → Nat, (∀ j, j < 5 → outcomes j = .error (f j)) →
      _get outcomes = (.error (some (f 4)), 5, 5)) ∧
    (∀ e, outcomes 0 = .error e → _post outcomes = (.error e, 1)) ∧
    (∀ r, outcomes 0 = .ok r → _post outcomes = (.ok r, 1)) := by
  refine ⟨?_, ?_, ?_, ?_⟩
  · intro k r hk hfail hok
    have h := getLoop_ok outcomes k 5 0 none 0 0 r (by omega)
      (fun j hj => by simpa using hfail j hj) (by simpa using hok)
    simpa [_get] using h
  · intro f hfail
    have h := getLoop_fail outcomes f 5 0 none 0 0 (by omega)
      (fun j hj => by simpa using hfail j hj)
    simpa [_get] using h
  · intro e he
    simp [_post, he]
  · intro r hr
    simp [_post, hr]

/-- C1 counterexample: on a trace whose first attempt is a connection failure
and whose second attempt would succeed, a form POST does NOT retry — it
propagates the connection error after a single attempt — while a GET on the
same trace succeeds on its second attempt. -/
theorem postNoRetry_cex :
    cexTrace 0 = .error 7 ∧ cexTrace 1 = .ok ⟨200, "ok"⟩ ∧
    _post cexTrace = (.error 7, 1) ∧ _get cexTrace = (.ok ⟨200, "ok"⟩, 2, 1) := by
  refine ⟨rfl, rfl, rfl, by decide⟩

/-- C1 witness: on a trace with two connection failures and then an
HTTP 500 response, a GET returns the 500 response as an ordinary result on
its third attempt after 2 seconds of sleep, and a POST propagates the first
connection failure. -/
theorem retryPolicy_witness :
    _get witTrace = (.ok ⟨500, "server error"⟩, 3, 2) ∧
    _post witTrace = (.error 0, 1) := by
  have h := retryPolicy witTrace
  refine ⟨h.1 2 ⟨500, "server error"⟩ (by omega) ?_ (by decide), h.2.2.1 0 (by decide)⟩
  intro j hj
  exact ⟨j, by unfold witTrace; rw [if_pos hj]⟩

/-- If the polling loop exits, it exits on the first terminal check at or
after its start index, having slept `poll` seconds per non-terminal check. -/
theorem waitLoop_some (done : Nat → Bool) (poll : Nat) (fuel : Nat) :
    ∀ (i slept k s : Nat), waitLoop done poll i slept fuel = some (k, s) →
      done k = true ∧ (∀ j, i ≤ j → j < k → done j = false) ∧ i ≤ k ∧
        s = slept + (k - i) * poll := by
  induction fuel with
  | zero => intro i slept k s h; simp [waitLoop] at h
  | succ f ih =>
    intro i slept k s h
    by_cases hd : done i = true
    · simp [waitLoop, hd] at h
      obtain ⟨hk, hs⟩ := h
      subst hk
      subst hs
      exact ⟨hd, fun j hij hjk => ((by omega : False)).elim, Nat.le_refl i, by simp⟩
    · have hd0 : done i = false := by simpa using hd
      simp only [waitLoop, hd0, Bool.false_eq_true, if_false] at h
      obtain ⟨h1, h2, h3, h4⟩ := ih (i + 1) (slept + poll) k s h
      refine ⟨h1, ?_, by omega, ?_⟩
      · intro j hij hjk
        rcases Nat.eq_or_lt_of_le hij with heq | hlt
        · rw [← heq]; exact hd0
        · exact h2 j (by omega) hjk
      · have hki : k - i = (k - (i + 1)) + 1 := by omega
        rw [h4, hki]
        ring

/-- If check k is the first terminal check at or after the start index and
the loop observes it, the loop exits there with `poll` seconds of sleep per
non-terminal check. -/
theorem waitLoop_finds (done : Nat → Bool) (poll : Nat) (fuel : Nat) :
    ∀ (i slept k : Nat), done k = true → (∀ j, i ≤ j → j < k → done j = false) →
      i ≤ k → k < i + fuel →
      waitLoop done poll i slept fuel = some (k, slept + (k - i) * poll) := by
  induction fuel with
  | zero => intro i slept k _ _ _ h; omega
  | succ f ih =>
    intro i slept k hk hbefore hik hlt
    rcases Nat.eq_or_lt_of_le hik with heq | hlt2
    · rw [← heq] at hk ⊢
      simp [waitLoop, hk]
    · have hdi : done i = false := hbefore i (Nat.le_refl i) hlt2
      have step := ih (i + 1) (slept + poll) k hk
        (fun j h1 h2 => hbefore j (by omega) h2) (by omega) (by omega)
      have harith : slept + poll + (k - (i + 1)) * poll = slept + (k - i) * poll := by
        have hki : k - i = (k - (i + 1)) + 1 := by omega
        rw [hki]
        ring
      rw [harith] at step
      simpa [waitLoop, hdi] using step

/-- If the polled job is non-terminal at every check, the polling loop never
exits, whatever bound is placed on the number of observed checks. -/
theorem waitLoop_none (done : Nat → Bool) (poll : Nat)
    (h : ∀ n, done n = false) (fuel : Nat) :
    ∀ (i slept : Nat), waitLoop done poll i slept fuel = none := by
  induction fuel with
  | zero => intro i slept; rfl
  | succ f ih => intro i slept; simp [waitLoop, h i, ih]

/-- C6: WaitUntilAgentIsDone returns exactly when the polled job is
classified terminal — it exits on the first terminal check, having slept
pollSeconds between consecutive checks (k checks down means k sleeps), and
when the job never reaches a terminal state it never returns, for every
bound on the number of observed checks (no maximum retry count or timeout
exists). -/
theorem waitUntilAgentIsDone_first_terminal (jobsAt : Nat → Option (List ParsedJob))
    (detailsAt : Nat → Int → Option ParsedJob) (agent : String) (poll fuel : Nat) :
    (∀ k s, WaitUntilAgentIsDone jobsAt detailsAt agent poll fuel = some (k, s) →
      _isJobDoneYet (detailsAt k) (_getMostRecentAgentJobNum (jobsAt 0) agent) = true ∧
      (∀ j, j < k →
        _isJobDoneYet (detailsAt j) (_getMostRecentAgentJobNum (jobsAt 0) agent) = false) ∧
      s = k * poll) ∧
    (∀ k, _isJobDoneYet (detailsAt k) (_getMostRecentAgentJobNum (jobsAt 0) agent) = true →
      (∀ j, j < k →
        _isJobDoneYet (detailsAt j) (_getMostRecentAgentJobNum (jobsAt 0) agent) = false) →
      k < fuel →
      WaitUntilAgentIsDone jobsAt detailsAt agent poll fuel = some (k, k * poll)) ∧
    ((∀ t, _isJobDoneYet (detailsAt t) (_getMostRecentAgentJobNum (jobsAt 0) agent) = false) →
      WaitUntilAgentIsDone jobsAt detailsAt agent poll fuel = none) := by
  unfold WaitUntilAgentIsDone
  refine ⟨?_, ?_, ?_⟩
  · intro k s h
    obtain ⟨h1, h2, h3, h4⟩ := waitLoop_some _ poll fuel 0 0 k s h
    exact ⟨h1, fun j hj => h2 j (Nat.zero_le j) hj, by simpa using h4⟩
  · intro k hk hbefore hlt
    have h := waitLoop_finds _ poll fuel 0 0 k hk
      (fun j h1 h2 => hbefore j h2) (Nat.zero_le k) (by omega)
    simpa using h
  · intro hall
    exact waitLoop_none _ poll hall fuel 0 0

/-- C6 witness: with job 5 "Processing" at checks 0 and 1 and "Completed"
from check 2 on, the wait exits on check 2 after 2 sleeps of 10 seconds. -/
theorem waitUntilAgentIsDone_first_terminal_witness :
    WaitUntilAgentIsDone wJobsAt wDetailsAt "monk" 10 6 = some (2, 20) := by
  have h := (waitUntilAgentIsDone_first_terminal wJobsAt wDetailsAt "monk" 10 6).2.1 2
    (by decide) (fun j hj => by interval_cases j <;> decide) (by omega)
  simpa using h

/-- Pointwise-equal terminality traces drive the polling loop identically. -/
theorem waitLoop_congr (d1 d2 : Nat → Bool) (poll : Nat) (h : ∀ t, d1 t = d2 t) (fuel : Nat) :
    ∀ (i slept : Nat), waitLoop d1 poll i slept fuel = waitLoop d2 poll i slept fuel := by
  induction fuel with
  | zero => intro i slept; rfl
  | succ f ih => intro i slept; simp only [waitLoop, h i, ih]

/-- C9: throughout one call to WaitUntilAgentIsDone the polled job id is the
one resolved from the job list seen before the loop started: two runs over
servers that agree on the initial job list and on the detail trace of the job
id resolved from it behave identically, however the later job lists differ —
a newer job for the same agent started after the wait began is never
observed. -/
theorem waitUntilAgentIsDone_fixed_job (jobsAt1 jobsAt2 : Nat → Option (List ParsedJob))
    (detailsAt1 detailsAt2 : Nat → Int → Option ParsedJob) (agent : String) (poll fuel : Nat)
    (hjobs : jobsAt1 0 = jobsAt2 0)
    (hdetails : ∀ t, detailsAt1 t (_getMostRecentAgentJobNum (jobsAt1 0) agent) =
        detailsAt2 t (_getMostRecentAgentJobNum (jobsAt1 0) agent)) :
    WaitUntilAgentIsDone jobsAt1 detailsAt1 agent poll fuel =
      WaitUntilAgentIsDone jobsAt2 detailsAt2 agent poll fuel := by
  unfold WaitUntilAgentIsDone
  rw [← hjobs]
  exact waitLoop_congr _ _ poll
    (fun t => by unfold _isJobDoneYet _getJobSingleData; rw [hdetails t]) fuel 0 0

/-- C9 witness: a run against a server whose job list never changes equals a
run against a server where a newer "monk" job (id 8) appears right after the
wait begins — the new job is never observed. -/
theorem waitUntilAgentIsDone_fixed_job_witness :
    WaitUntilAgentIsDone wJobsAt wDetailsAt "monk" 10 6 =
      WaitUntilAgentIsDone wJobsAtLater wDetailsAt "monk" 10 6 :=
  waitUntilAgentIsDone_fixed_job wJobsAt wJobsAtLater wDetailsAt wDetailsAt "monk" 10 6
    rfl (fun _ => rfl)

end Fossdriver
